import Mathlib

/-!
Shallow embedding of `src/CommonConnectionPool.cpp`: the pool state (idle
connection queue plus live-connection counter), the lock-held bodies of the
producer thread, the reaper scan, the consumer `getConnection` wait loop, the
lease-return deleter, and the configuration-file loader.  Each definition
mirrors the corresponding C++ function; time is modelled as an explicit
millisecond clock value passed in, and condition-variable wakeups as an
explicit trace of wake events.
-/

namespace ConnectionPool

/-- Modelled from the spec: the external `Connection` collaborator (its header
is not under `src/`).  It carries an idle-since timestamp in milliseconds,
set by `refreshAliveTime`, and a flag recording whether `connect` succeeded. -/
structure Conn where
  aliveSince : Int
  connected : Bool
deriving DecidableEq, Repr

/-- Modelled from the spec: `refreshAliveTime()` stamps the connection with
the current time, the start of its idle period. -/
def refreshAliveTime (c : Conn) (now : Int) : Conn :=
  { c with aliveSince := now }

/-- Modelled from the spec: `getAliveeTime()` (source spelling) returns the
idle duration in milliseconds, the current time minus the idle-since stamp. -/
def getAliveeTime (c : Conn) (now : Int) : Int :=
  now - c.aliveSince

/-- Modelled from the spec: `new Connection()` followed by
`connect(ip, port, user, pass, db)` (whose boolean result the pool code
ignores) and `refreshAliveTime()`.  `ok` is the result `connect` returned. -/
def makeConnection (now : Int) (ok : Bool) : Conn :=
  ⟨now, ok⟩

/-- The configuration members of `ConnectionPool` filled in by
`loadConfigFile` (`_ip`, `_port`, `_username`, `_password`, `_dbname`,
`_initSize`, `_maxSize`, `_maxIdleTime` in seconds, `_connectionTimeout`
in milliseconds). -/
structure PoolConfig where
  ip : String
  port : Int
  username : String
  password : String
  dbname : String
  initSize : Int
  maxSize : Int
  maxIdleTime : Int
  connectionTimeout : Int
deriving DecidableEq, Repr

/-- The shared pool state guarded by `_queueMutex`: the idle queue
`_connectionQue` (head of the list is the queue front) and the live counter
`_connectionCnt`. -/
structure PoolState where
  connectionQue : List Conn
  connectionCnt : Int
deriving DecidableEq, Repr

/-- The state after the `ConnectionPool` constructor's eager loop
(lines 142 to 149): it runs `for (int i = 0; i < _initSize; ++i)`, each pass
creating a connection (ignoring the `connect` result given by `oks`),
stamping it, pushing it and incrementing the counter. -/
def initState (cfg : PoolConfig) (now : Int) (oks : Nat → Bool) : PoolState :=
  { connectionQue := (List.range cfg.initSize.toNat).map (fun i => makeConnection now (oks i)),
    connectionCnt := (cfg.initSize.toNat : Int) }

/-- The lock-held body of one `produceConnectionTask` pass once the queue has
been observed empty (lines 171 to 182): if `_connectionCnt < _maxSize`, create
a connection (the `connect` result `ok` is ignored), stamp it, push it and
increment the counter; in every case `cv.notify_all()` runs afterwards.  The
boolean in the result records that broadcast. -/
def produceApply (cfg : PoolConfig) (now : Int) (ok : Bool) (st : PoolState) :
    PoolState × Bool :=
  if st.connectionCnt < cfg.maxSize then
    ({ connectionQue := st.connectionQue ++ [makeConnection now ok],
       connectionCnt := st.connectionCnt + 1 }, true)
  else
    (st, true)

/-- One iteration of the producer loop (lines 163 to 183): while
`_connectionQue` is non-empty the producer waits on the condition variable
(`none`: no state change happens); only after observing an empty queue does
it run the body. -/
def produceIteration (cfg : PoolConfig) (now : Int) (ok : Bool) (st : PoolState) :
    Option (PoolState × Bool) :=
  match st.connectionQue with
  | _ :: _ => none
  | [] => some (produceApply cfg now ok st)

/-- The lock-held scan loop of `scannerConnectionTask` (lines 196 to 209):
while `_connectionCnt > initSize`, read the queue front; if its idle time is
at least `threshold` milliseconds, pop it, decrement the counter and destroy
it (collected in the result's third component), otherwise break.  Reading the
front of an empty queue is undefined behaviour in C++ and is modelled as
`Except.error ()`. -/
def scanLoop (initSize threshold now : Int) :
    List Conn → Int → Except Unit (List Conn × Int × List Conn)
  | q, cnt =>
    if cnt ≤ initSize then
      .ok (q, cnt, [])
    else
      match q with
      | [] => .error ()
      | c :: rest =>
        if threshold ≤ getAliveeTime c now then
          match scanLoop initSize threshold now rest (cnt - 1) with
          | .error e => .error e
          | .ok (q', cnt', ds) => .ok (q', cnt', c :: ds)
        else
          .ok (c :: rest, cnt, [])

/-- One reaper wake applied to the pool state: the scan runs with threshold
`_maxIdleTime * 1000` (line 199).  Returns the new state and the list of
destroyed connections, or an error when the scan reads the front of an empty
queue. -/
def scanApply (cfg : PoolConfig) (now : Int) (st : PoolState) :
    Except Unit (PoolState × List Conn) :=
  match scanLoop cfg.initSize (cfg.maxIdleTime * 1000) now st.connectionQue st.connectionCnt with
  | .error e => .error e
  | .ok (q, cnt, ds) => .ok (⟨q, cnt⟩, ds)

/-- The shared-pointer deleter installed by `getConnection` (lines 237 to
244): under the lock it refreshes the connection's idle stamp and pushes it
to the back of `_connectionQue`.  It does not touch `_connectionCnt`, does
not destroy the connection, and performs no `notify_all` (the final boolean
records whether a broadcast happened). -/
def releaseConnection (q : List Conn) (cnt : Int) (c : Conn) (now : Int) :
    List Conn × Int × Bool :=
  (q ++ [refreshAliveTime c now], cnt, false)

/-- One return from `cv.wait_for` inside `getConnection` (line 221).
`timedOut` is whether the wait returned `cv_status::timeout`; `elapsed` is
the time the wait consumed when it was cut short by a notification (a timed
out wait consumes the full `_connectionTimeout`); `queueNow` is the content
of `_connectionQue` when the wait returns (other threads may have changed it
while the lock was dropped). -/
structure Wake where
  timedOut : Bool
  elapsed : Nat
  queueNow : List Conn
deriving DecidableEq, Repr

/-- What a `getConnection` call ends as. -/
inductive AcqResult where
  | got (c : Conn) (restQueue : List Conn)
  | timedOut
  | blocked
deriving DecidableEq, Repr

/-- Observable outcome of a `getConnection` call: its result, the queue it
leaves behind, the counter it leaves behind (the function never touches
`_connectionCnt`, so the counter is threaded through unchanged), whether the
timeout log line ran, whether `cv.notify_all()` ran, and the total time spent
waiting in milliseconds. -/
structure AcqOutcome where
  result : AcqResult
  finalQueue : List Conn
  finalCnt : Int
  logged : Bool
  notified : Bool
  elapsedTotal : Nat
deriving DecidableEq, Repr

/-- The `getConnection` wait loop (lines 217 to 249) with timeout `t`
milliseconds (`_connectionTimeout`).  While the queue is empty it consumes
wake events: a wait that times out with the queue still empty logs and
returns null; any other wake re-checks the loop condition against the queue
seen at the wake.  Once the queue is non-empty it pops the front, installs
the deleter and broadcasts.  `blocked` marks a call still inside `wait_for`
when the event trace runs out. -/
def getConnectionLoop (t : Nat) : List Conn → Int → List Wake → AcqOutcome
  | c :: rest, cnt, _ =>
    ⟨.got c rest, rest, cnt, false, true, 0⟩
  | [], cnt, [] =>
    ⟨.blocked, [], cnt, false, false, 0⟩
  | [], cnt, w :: ws =>
    if w.timedOut ∧ w.queueNow = [] then
      ⟨.timedOut, w.queueNow, cnt, true, false, t⟩
    else
      let o := getConnectionLoop t w.queueNow cnt ws
      { o with elapsedTotal := (if w.timedOut then t else w.elapsed) + o.elapsedTotal }

/-- Models `std::stoi(value)` as called by `loadConfigFile` (lines 104 to
111): skip leading whitespace, take an optional sign and then at least one
decimal digit; no digit raises `std::invalid_argument` and a value outside
the `int` range raises `std::out_of_range`, both modelled as `Except.error`.
These exceptions are not caught anywhere in the pool code. -/
def stoi (s : String) : Except String Int :=
  let l := s.toList.dropWhile (fun c => c = ' ' ∨ c = '\t' ∨ c = '\n' ∨ c = '\r')
  let (sign, l') : Int × List Char :=
    match l with
    | '+' :: r => (1, r)
    | '-' :: r => (-1, r)
    | _ => (1, l)
  match l'.takeWhile Char.isDigit with
  | [] => .error "invalid_argument"
  | ds =>
    let v : Int := sign * (ds.foldl (fun acc c => 10 * acc + (c.toNat - 48)) 0 : Nat)
    if v < -2147483648 ∨ 2147483647 < v then .error "out_of_range" else .ok v

/-- The line splitting done by `std::getline(iss, key, '=')` followed by
`std::getline(iss, value)` (line 119): the key is everything before the first
`=`; the value is the rest of the line and the second `getline` fails when
that rest is empty; a line with no `=` fails the pair too.  `none` means the
line is skipped. -/
def splitAtEq : List Char → Option (List Char × List Char)
  | [] => none
  | '=' :: rest => some ([], rest)
  | c :: rest =>
    match splitAtEq rest with
    | none => none
    | some (k, v) => some (c :: k, v)

/-- See `splitAtEq`: the key is the part of the line before the first `=`,
the value the rest; a line with no `=`, or nothing after the first `=`,
makes the `getline` pair fail and the line is skipped (`none`). -/
def parseLine (s : String) : Option (String × String) :=
  match splitAtEq s.toList with
  | none => none
  | some (k, v) =>
    match v with
    | [] => none
    | _ => some (⟨k⟩, ⟨v⟩)

/-- One config line applied to the pool's config members, following the
`configMap` dispatch of `loadConfigFile` (lines 102 to 126): recognised keys
update their member (numeric ones through `stoi`, whose exception
propagates), unknown keys and skipped lines leave the config unchanged. -/
def applyConfigLine (cfg : PoolConfig) (line : String) : Except String PoolConfig :=
  match parseLine line with
  | none => .ok cfg
  | some (k, v) =>
    if k = "ip" then .ok { cfg with ip := v }
    else if k = "port" then (stoi v).map (fun n => { cfg with port := n })
    else if k = "username" then .ok { cfg with username := v }
    else if k = "password" then .ok { cfg with password := v }
    else if k = "dbname" then .ok { cfg with dbname := v }
    else if k = "initSize" then (stoi v).map (fun n => { cfg with initSize := n })
    else if k = "maxSize" then (stoi v).map (fun n => { cfg with maxSize := n })
    else if k = "maxIdleTime" then (stoi v).map (fun n => { cfg with maxIdleTime := n })
    else if k = "connectionTimeOut" then (stoi v).map (fun n => { cfg with connectionTimeout := n })
    else .ok cfg

/-- `loadConfigFile` (lines 93 to 130) over the file content: `none` models a
missing `mysql.ini` (the open fails), in which case the function logs and
returns `false` leaving the config untouched; otherwise each line is applied
in order and the function returns `true`.  The result triple is (config,
return value, logged flag); an uncaught `stoi` exception surfaces as
`Except.error`. -/
def loadConfigFile (file : Option (List String)) (cfg : PoolConfig) :
    Except String (PoolConfig × Bool × Bool) :=
  match file with
  | none => .ok (cfg, false, true)
  | some lines =>
    match lines.foldlM applyConfigLine cfg with
    | .error e => .error e
    | .ok cfg' => .ok (cfg', true, false)

/-- The atomic transitions on the shared pool state, each the lock-held body
of one of the four flows in `CommonConnectionPool.cpp`: a producer pass that
observed an empty queue, a reaper scan that completed without reading the
front of an empty queue, a consumer popping the front of a non-empty queue
(lines 237, 246), and the deleter returning a leased connection `c`. -/
inductive PoolStep (cfg : PoolConfig) : PoolState → PoolState → Prop
  | produce (now : Int) (ok : Bool) (st st' : PoolState) (b : Bool) :
      produceIteration cfg now ok st = some (st', b) → PoolStep cfg st st'
  | scan (now : Int) (st st' : PoolState) (ds : List Conn) :
      scanApply cfg now st = .ok (st', ds) → PoolStep cfg st st'
  | acquire (st : PoolState) (c : Conn) (rest : List Conn) :
      st.connectionQue = c :: rest → PoolStep cfg st ⟨rest, st.connectionCnt⟩
  | release (st : PoolState) (c : Conn) (now : Int) :
      PoolStep cfg st ⟨(releaseConnection st.connectionQue st.connectionCnt c now).1,
        (releaseConnection st.connectionQue st.connectionCnt c now).2.1⟩

/-- States the pool can reach from a given state through any interleaving of
the four lock-held transitions. -/
def Reachable (cfg : PoolConfig) : PoolState → PoolState → Prop :=
  Relation.ReflTransGen (PoolStep cfg)

/-- A sample configuration with `initSize = 1`, `maxSize = 2`,
`maxIdleTime = 60` seconds and `connectionTimeout = 100` milliseconds, used
to instantiate theorems at concrete inputs. -/
def cfgW : PoolConfig :=
  ⟨"127.0.0.1", 3306, "root", "123456", "test", 1, 2, 60, 100⟩

/-- A sample configuration with `initSize = 2`, `maxSize = 4`. -/
def cfg0 : PoolConfig :=
  ⟨"127.0.0.1", 3306, "root", "123456", "test", 2, 4, 60, 100⟩

/-- A wake-event trace for a consumer facing an exhausted pool: nine
notifications that each arrive after 99 ms with the queue still empty
(the producer at `maxSize` broadcasts without creating anything), then a
wait that runs to its full deadline. -/
def spamTrace : List Wake :=
  List.replicate 9 ⟨false, 99, []⟩ ++ [⟨true, 0, []⟩]

/-- Claim C4: in every producer iteration the producer acts only after
observing an empty idle queue; on an empty queue it creates, stamps and
enqueues exactly one new connection and increments the live count by exactly
one precisely when the count is strictly below `maxSize`, and it broadcasts
on the condition variable regardless of whether a connection was created. -/
theorem producer_iteration_spec (cfg : PoolConfig) (now : Int) (ok : Bool) (st : PoolState) :
    (∀ c q, st.connectionQue = c :: q → produceIteration cfg now ok st = none) ∧
    (st.connectionQue = [] →
      produceIteration cfg now ok st =
        some (if st.connectionCnt < cfg.maxSize
          then ({ connectionQue := st.connectionQue ++ [makeConnection now ok],
                  connectionCnt := st.connectionCnt + 1 }, true)
          else (st, true))) := by
  obtain ⟨q, cnt⟩ := st
  constructor
  · intro c rest h
    simp only at h
    subst h
    rfl
  · intro h
    simp only at h
    subst h
    rfl

/-- Witness for `producer_iteration_spec` at a concrete state: with an empty
queue and count 0 below `maxSize = 2` the producer enqueues one connection
and broadcasts, and with a non-empty queue it keeps waiting. -/
theorem producer_iteration_spec_witness :
    produceIteration cfgW 3 true ⟨[], 0⟩ = some (⟨[makeConnection 3 true], 1⟩, true) ∧
    produceIteration cfgW 3 true ⟨[⟨0, true⟩], 0⟩ = none := by
  have h := producer_iteration_spec cfgW 3 true ⟨[], 0⟩
  have h2 := producer_iteration_spec cfgW 3 true ⟨[⟨0, true⟩], 0⟩
  exact ⟨(h.2 rfl).trans (by rfl), h2.1 ⟨0, true⟩ [] rfl⟩

/-- Claim C6: the lease-return deleter refreshes the connection's idle stamp
to the release time, pushes exactly that connection to the tail of the idle
queue, leaves the live count unchanged, leaves the connection alive (it is in
the resulting queue, not destroyed), and when the clock has not gone
backwards since the lease the new idle stamp is at least the old one. -/
theorem release_frame (q : List Conn) (cnt : Int) (c : Conn) (now : Int)
    (h : c.aliveSince ≤ now) :
    (releaseConnection q cnt c now).1 = q ++ [refreshAliveTime c now] ∧
    (releaseConnection q cnt c now).2.1 = cnt ∧
    (refreshAliveTime c now).aliveSince = now ∧
    c.aliveSince ≤ (refreshAliveTime c now).aliveSince ∧
    refreshAliveTime c now ∈ (releaseConnection q cnt c now).1 := by
  refine ⟨rfl, rfl, rfl, h, ?_⟩
  exact List.mem_append_right q (List.mem_singleton.mpr rfl)

/-- Witness for `release_frame`: returning a connection leased with stamp 0
at time 5 to a pool of two idle connections and count 3. -/
theorem release_frame_witness :
    (releaseConnection [⟨1, true⟩] 3 ⟨0, true⟩ 5).1 = [⟨1, true⟩] ++ [refreshAliveTime ⟨0, true⟩ 5] ∧
    (releaseConnection [⟨1, true⟩] 3 ⟨0, true⟩ 5).2.1 = 3 ∧
    (refreshAliveTime (⟨0, true⟩ : Conn) 5).aliveSince = 5 ∧
    (⟨0, true⟩ : Conn).aliveSince ≤ (refreshAliveTime ⟨0, true⟩ 5).aliveSince ∧
    refreshAliveTime ⟨0, true⟩ 5 ∈ (releaseConnection [⟨1, true⟩] 3 ⟨0, true⟩ 5).1 :=
  release_frame [⟨1, true⟩] 3 ⟨0, true⟩ 5 (by decide)

/-- Counterexample to claim C7: the lease-return deleter mutates the shared
pool state (it pushes the returned connection, turning an empty queue into a
non-empty one) but performs no broadcast on the condition variable, so not
every state mutation is followed by a broadcast. -/
theorem release_no_broadcast_cex :
    (releaseConnection [] 3 ⟨0, true⟩ 5).1 = [⟨5, true⟩] ∧
    (releaseConnection [] 3 ⟨0, true⟩ 5).1 ≠ ([] : List Conn) ∧
    (releaseConnection [] 3 ⟨0, true⟩ 5).2.2 = false := by
  decide

/-- Claim C7 as amended: the producer broadcasts after every iteration body
and a successful acquisition broadcasts after popping the queue, but the
lease-return deleter pushes the connection back without broadcasting. -/
theorem broadcast_per_flow (cfg : PoolConfig) (now : Int) (ok : Bool) (st : PoolState)
    (t : Nat) (c d : Conn) (rest q : List Conn) (cnt : Int) (wakes : List Wake) :
    (produceApply cfg now ok st).2 = true ∧
    (getConnectionLoop t (c :: rest) cnt wakes).notified = true ∧
    (releaseConnection q cnt d now).2.2 = false := by
  refine ⟨?_, ?_, rfl⟩
  · unfold produceApply
    split <;> rfl
  · cases wakes <;> rfl

/-- Claim C9 is violated by the code (`connect`'s boolean result is ignored
at lines 145 and 175): a producer pass whose `connect` fails still enqueues
the dead connection and increments the live counter from 0 to 1, and the
constructor with every `connect` failing still ends with the counter at
`initSize`. -/
theorem count_incremented_on_failed_connect :
    produceIteration cfgW 7 false ⟨[], 0⟩ = some (⟨[⟨7, false⟩], 1⟩, true) ∧
    (initState cfg0 0 (fun _ => false)).connectionCnt = 2 ∧
    (initState cfg0 0 (fun _ => false)).connectionQue = [⟨0, false⟩, ⟨0, false⟩] := by
  exact ⟨rfl, rfl, rfl⟩

/-- Counterexample to claim C10: a configuration line whose numeric key
carries a non-numeric value makes `std::stoi` raise `invalid_argument`,
which no caller of `loadConfigFile` catches — the modelled load aborts with
an error instead of skipping or ignoring the line. -/
theorem loadConfigFile_uncaught_exception_cex :
    loadConfigFile (some ["port=abc"]) cfg0 = .error "invalid_argument" := by
  rfl

/-- Claim C10 as amended: lines without a key=value separator are skipped,
unrecognized keys are ignored, a missing file yields a logged failure
leaving the configuration untouched, and a recognized numeric key with a
numeric value is parsed; but a non-numeric value for a numeric key raises an
uncaught `std::stoi` exception that propagates out of the load. -/
theorem loadConfigFile_amended (cfg : PoolConfig) :
    applyConfigLine cfg "no separator here" = .ok cfg ∧
    applyConfigLine cfg "unknownKey=value" = .ok cfg ∧
    loadConfigFile none cfg = .ok (cfg, false, true) ∧
    applyConfigLine cfg "port=99" = .ok { cfg with port := 99 } ∧
    applyConfigLine cfg "port=abc" = .error "invalid_argument" ∧
    loadConfigFile (some ["initSize=xyz"]) cfg = .error "invalid_argument" := by
  exact ⟨rfl, rfl, rfl, rfl, rfl, rfl⟩

/-- Structure of a completed reaper scan loop: the destroyed connections are
an initial segment of the queue, each destroyed connection is stale, the
counter drops by exactly the number destroyed and never below `initSize`
(when it started at or above it), and when the loop stops with the counter
still above `initSize` the remaining front is not yet stale. -/
theorem scanLoop_spec (initSize threshold now : Int) (q : List Conn) :
    ∀ (cnt : Int) (q' : List Conn) (cnt' : Int) (ds : List Conn),
      scanLoop initSize threshold now q cnt = .ok (q', cnt', ds) →
      q = ds ++ q' ∧
      cnt' = cnt - ds.length ∧
      (∀ c ∈ ds, threshold ≤ getAliveeTime c now) ∧
      (initSize ≤ cnt → initSize ≤ cnt') ∧
      (∀ c rest, q' = c :: rest → initSize < cnt' → getAliveeTime c now < threshold) := by
  induction q with
  | nil =>
    intro cnt q' cnt' ds h
    unfold scanLoop at h
    split at h
    · simp only [Except.ok.injEq, Prod.mk.injEq] at h
      obtain ⟨h1, h2, h3⟩ := h
      subst h1; subst h2; subst h3
      refine ⟨rfl, by simp, by simp, fun hc => hc, ?_⟩
      intro c rest hcr
      cases hcr
    · cases h
  | cons c rest ih =>
    intro cnt q' cnt' ds h
    unfold scanLoop at h
    split at h
    · rename_i hle
      simp only [Except.ok.injEq, Prod.mk.injEq] at h
      obtain ⟨h1, h2, h3⟩ := h
      subst h1; subst h2; subst h3
      refine ⟨rfl, by simp, by simp, fun hc => hc, ?_⟩
      intro c₀ rest₀ hcr hgt
      exact absurd hle (not_le.mpr hgt)
    · rename_i hgt
      split at h
      · cases h
      · rename_i c₁ rest₁ hcons
        injection hcons with hc hrest
        subst hc; subst hrest
        split at h
        · rename_i hstale
          cases hrec : scanLoop initSize threshold now rest (cnt - 1) with
          | error e => rw [hrec] at h; cases h
          | ok triple =>
            obtain ⟨q₀, cnt₀, ds₀⟩ := triple
            rw [hrec] at h
            simp only [Except.ok.injEq, Prod.mk.injEq] at h
            obtain ⟨h1, h2, h3⟩ := h
            subst h1; subst h2; subst h3
            obtain ⟨ih1, ih2, ih3, ih4, ih5⟩ := ih (cnt - 1) q₀ cnt₀ ds₀ hrec
            refine ⟨by rw [ih1]; rfl, ?_, ?_, ?_, ih5⟩
            · rw [ih2]
              simp only [List.length_cons]
              push_cast
              omega
            · intro c₀ hc₀
              rcases List.mem_cons.mp hc₀ with hc₀ | hc₀
              · subst hc₀; exact hstale
              · exact ih3 c₀ hc₀
            · intro _
              apply ih4
              omega
        · rename_i hnstale
          simp only [Except.ok.injEq, Prod.mk.injEq] at h
          obtain ⟨h1, h2, h3⟩ := h
          subst h1; subst h2; subst h3
          refine ⟨rfl, by simp, by simp, fun hc => hc, ?_⟩
          intro c₀ rest₀ hcr _
          injection hcr with hc₀ _
          subst hc₀
          exact not_le.mp hnstale

/-- `scanLoop_spec` lifted to `scanApply` on pool states. -/
theorem scanApply_spec (cfg : PoolConfig) (now : Int) (st st' : PoolState) (ds : List Conn)
    (h : scanApply cfg now st = .ok (st', ds)) :
    st.connectionQue = ds ++ st'.connectionQue ∧
    st'.connectionCnt = st.connectionCnt - ds.length ∧
    (∀ c ∈ ds, cfg.maxIdleTime * 1000 ≤ getAliveeTime c now) ∧
    (cfg.initSize ≤ st.connectionCnt → cfg.initSize ≤ st'.connectionCnt) ∧
    (∀ c rest, st'.connectionQue = c :: rest → cfg.initSize < st'.connectionCnt →
      getAliveeTime c now < cfg.maxIdleTime * 1000) := by
  unfold scanApply at h
  cases hrec : scanLoop cfg.initSize (cfg.maxIdleTime * 1000) now st.connectionQue
      st.connectionCnt with
  | error e => rw [hrec] at h; cases h
  | ok triple =>
    obtain ⟨q₀, cnt₀, ds₀⟩ := triple
    rw [hrec] at h
    obtain ⟨h1, h2⟩ : st' = (⟨q₀, cnt₀⟩ : PoolState) ∧ ds = ds₀ := by
      injection h with h
      exact ⟨congrArg Prod.fst h.symm, congrArg Prod.snd h.symm⟩
    subst h1; subst h2
    exact scanLoop_spec cfg.initSize (cfg.maxIdleTime * 1000) now st.connectionQue
      st.connectionCnt q₀ cnt₀ ds hrec

/-- Claim C3: a reaper scan that completes destroys only connections taken
from the front of the idle queue whose idle duration is at least
`maxIdleTime * 1000` milliseconds, decrements the live count by exactly the
number destroyed and never below `initSize`, and stops at the first front
entry that is not yet stale while the count is still above `initSize`. -/
theorem scanner_spec (cfg : PoolConfig) (now : Int) (st st' : PoolState) (ds : List Conn)
    (h : scanApply cfg now st = .ok (st', ds)) :
    st.connectionQue = ds ++ st'.connectionQue ∧
    st'.connectionCnt = st.connectionCnt - ds.length ∧
    (∀ c ∈ ds, cfg.maxIdleTime * 1000 ≤ getAliveeTime c now) ∧
    (cfg.initSize ≤ st.connectionCnt → cfg.initSize ≤ st'.connectionCnt) ∧
    (∀ c rest, st'.connectionQue = c :: rest → cfg.initSize < st'.connectionCnt →
      getAliveeTime c now < cfg.maxIdleTime * 1000) :=
  scanApply_spec cfg now st st' ds h

/-- Witness for `scanner_spec`: with `initSize = 1` and a 60-second idle
threshold, a scan at time 100000 over a queue holding a connection idle for
100000 ms and one idle for 50000 ms destroys exactly the first and stops at
the second, dropping the live count from 3 to 2. -/
theorem scanner_spec_witness :
    (⟨[⟨0, true⟩, ⟨50000, true⟩], 3⟩ : PoolState).connectionQue =
      [⟨0, true⟩] ++ (⟨[⟨50000, true⟩], 2⟩ : PoolState).connectionQue ∧
    (⟨[⟨50000, true⟩], 2⟩ : PoolState).connectionCnt =
      (⟨[⟨0, true⟩, ⟨50000, true⟩], 3⟩ : PoolState).connectionCnt -
        ([⟨0, true⟩] : List Conn).length ∧
    (∀ c ∈ ([⟨0, true⟩] : List Conn), cfgW.maxIdleTime * 1000 ≤ getAliveeTime c 100000) ∧
    (cfgW.initSize ≤ (⟨[⟨0, true⟩, ⟨50000, true⟩], 3⟩ : PoolState).connectionCnt →
      cfgW.initSize ≤ (⟨[⟨50000, true⟩], 2⟩ : PoolState).connectionCnt) ∧
    (∀ c rest, (⟨[⟨50000, true⟩], 2⟩ : PoolState).connectionQue = c :: rest →
      cfgW.initSize < (⟨[⟨50000, true⟩], 2⟩ : PoolState).connectionCnt →
      getAliveeTime c 100000 < cfgW.maxIdleTime * 1000) :=
  scanner_spec cfgW 100000 ⟨[⟨0, true⟩, ⟨50000, true⟩], 3⟩ ⟨[⟨50000, true⟩], 2⟩
    [⟨0, true⟩] (by rfl)

/-- Each single lock-held transition keeps the live count within
`[initSize, maxSize]`: the producer increments only when strictly below
`maxSize`, the reaper decrements only while strictly above `initSize`, and
acquire and release leave the counter unchanged. -/
theorem poolStep_preserves_count (cfg : PoolConfig) (st st' : PoolState)
    (h : PoolStep cfg st st')
    (hinv : cfg.initSize ≤ st.connectionCnt ∧ st.connectionCnt ≤ cfg.maxSize) :
    cfg.initSize ≤ st'.connectionCnt ∧ st'.connectionCnt ≤ cfg.maxSize := by
  cases h with
  | produce now ok st st' b hp =>
    unfold produceIteration at hp
    split at hp
    · cases hp
    · injection hp with hp
      by_cases hlt : st.connectionCnt < cfg.maxSize
      · unfold produceApply at hp
        rw [if_pos hlt] at hp
        have h1 := congrArg Prod.fst hp
        simp only at h1
        subst h1
        simp only
        omega
      · unfold produceApply at hp
        rw [if_neg hlt] at hp
        have h1 := congrArg Prod.fst hp
        simp only at h1
        subst h1
        exact hinv
  | scan now st st' ds hs =>
    obtain ⟨_, hcnt, _, hfloor, _⟩ := scanApply_spec cfg now st st' ds hs
    constructor
    · exact hfloor hinv.1
    · rw [hcnt]
      have : (0 : Int) ≤ ds.length := Int.natCast_nonneg ds.length
      omega
  | acquire st c rest hq =>
    exact hinv
  | release st c now =>
    exact hinv

/-- Claim C1: from the state left by a completed initialization (config
loaded with `0 ≤ initSize ≤ maxSize` and the `initSize` eager connections
created), every state reachable through any interleaving of producer, reaper,
acquire and release transitions keeps the live count between `initSize` and
`maxSize`. -/
theorem pool_count_invariant (cfg : PoolConfig) (now : Int) (oks : Nat → Bool)
    (st : PoolState) (h0 : 0 ≤ cfg.initSize) (h1 : cfg.initSize ≤ cfg.maxSize)
    (hr : Reachable cfg (initState cfg now oks) st) :
    cfg.initSize ≤ st.connectionCnt ∧ st.connectionCnt ≤ cfg.maxSize := by
  unfold Reachable at hr
  induction hr with
  | refl =>
    constructor
    · show cfg.initSize ≤ (initState cfg now oks).connectionCnt
      unfold initState
      simp only
      rw [Int.toNat_of_nonneg h0]
    · show (initState cfg now oks).connectionCnt ≤ cfg.maxSize
      unfold initState
      simp only
      rw [Int.toNat_of_nonneg h0]
      exact h1
  | tail hsteps hstep ih =>
    exact poolStep_preserves_count cfg _ _ hstep ih

/-- Witness for `pool_count_invariant`: the freshly initialized pool with
`initSize = 1` and `maxSize = 2` is reachable from itself and its live count
of 1 lies between the two bounds. -/
theorem pool_count_invariant_witness :
    cfgW.initSize ≤ (initState cfgW 0 (fun _ => true)).connectionCnt ∧
    (initState cfgW 0 (fun _ => true)).connectionCnt ≤ cfgW.maxSize :=
  pool_count_invariant cfgW 0 (fun _ => true) (initState cfgW 0 (fun _ => true))
    (by decide) (by decide) Relation.ReflTransGen.refl

/-- Claim C8 is violated by the code: with `initSize = 1`, `maxSize = 2`, the
state with an empty idle queue and live count 2 is reachable (acquire the
eager connection, let the producer refill, acquire again — both connections
are now held by lease handles), and in that state the reaper scan reads
`_connectionQue.front()` on an empty queue, undefined behaviour modelled as
`Except.error ()`. -/
theorem reaper_reads_front_of_empty_queue :
    Reachable cfgW (initState cfgW 0 (fun _ => true)) ⟨[], 2⟩ ∧
    scanApply cfgW 100000 ⟨[], 2⟩ = .error () := by
  constructor
  · exact Relation.ReflTransGen.tail
      (Relation.ReflTransGen.tail
        (Relation.ReflTransGen.tail Relation.ReflTransGen.refl
          (PoolStep.acquire (initState cfgW 0 (fun _ => true)) ⟨0, true⟩ [] rfl))
        (PoolStep.produce 5 true ⟨[], 1⟩ ⟨[⟨5, true⟩], 2⟩ true rfl))
      (PoolStep.acquire ⟨[⟨5, true⟩], 2⟩ ⟨5, true⟩ [] rfl)
  · rfl

/-- Total time a `getConnection` call spends waiting is bounded by one full
timeout per wake event it consumes: each `cv.wait_for` call is passed the
full `_connectionTimeout`, never a remaining budget. -/
theorem getConnectionLoop_elapsed_le (t : Nat) (wakes : List Wake) :
    ∀ (q : List Conn) (cnt : Int), (∀ w ∈ wakes, w.elapsed ≤ t) →
      (getConnectionLoop t q cnt wakes).elapsedTotal ≤ wakes.length * t := by
  induction wakes with
  | nil =>
    intro q cnt _
    cases q <;> simp [getConnectionLoop]
  | cons w ws ih =>
    intro q cnt hb
    cases q with
    | cons c rest => simp [getConnectionLoop]
    | nil =>
      unfold getConnectionLoop
      split
      · show t ≤ (ws.length + 1) * t
        have h3 : (ws.length + 1) * t = t + ws.length * t := by ring
        rw [h3]
        exact Nat.le_add_right t (ws.length * t)
      · show (if w.timedOut then t else w.elapsed) +
            (getConnectionLoop t w.queueNow cnt ws).elapsedTotal ≤ (ws.length + 1) * t
        have h1 : (if w.timedOut then t else w.elapsed) ≤ t := by
          split
          · exact le_refl t
          · exact hb w (List.mem_cons_self w ws)
        have h2 := ih w.queueNow cnt (fun x hx => hb x (List.mem_cons_of_mem w hx))
        have h3 : (ws.length + 1) * t = t + ws.length * t := by ring
        rw [h3]
        exact Nat.add_le_add h1 h2

/-- Counterexample to claim C2: against an exhausted pool (queue empty, live
count at `maxSize = 4`, nothing returned meanwhile) with a 100 ms timeout,
nine broadcasts that each arrive after 99 ms with the queue still empty make
the call restart a full 100 ms wait every time: it returns null only after
991 ms, far beyond `connectionTimeout` plus any small epsilon, because each
wait uses the full timeout rather than the remaining budget. -/
theorem acquire_exhausted_unbounded_wait_cex :
    (getConnectionLoop 100 [] 4 spamTrace).result = .timedOut ∧
    (getConnectionLoop 100 [] 4 spamTrace).elapsedTotal = 991 ∧
    100 + 100 < (getConnectionLoop 100 [] 4 spamTrace).elapsedTotal := by
  decide

/-- Claim C2 as amended: a wait that runs to its deadline with the queue
still empty makes `getConnection` return null after exactly one full
`connectionTimeout`, and in general each `cv.wait_for` is passed the full
configured timeout (not the remaining budget), so a call that consumes `n`
wake events waits at most `n` times the full timeout — wakeups that find the
queue empty restart the full timeout and can extend the total wait beyond
the configured timeout. -/
theorem acquire_full_timeout_each_wait (t : Nat) (cnt : Int) (wakes : List Wake)
    (hb : ∀ w ∈ wakes, w.elapsed ≤ t) :
    (getConnectionLoop t [] cnt (⟨true, 0, []⟩ :: wakes)).result = .timedOut ∧
    (getConnectionLoop t [] cnt (⟨true, 0, []⟩ :: wakes)).logged = true ∧
    (getConnectionLoop t [] cnt (⟨true, 0, []⟩ :: wakes)).elapsedTotal = t ∧
    (getConnectionLoop t [] cnt wakes).elapsedTotal ≤ wakes.length * t :=
  ⟨rfl, rfl, rfl, getConnectionLoop_elapsed_le t wakes [] cnt hb⟩

/-- Witness for `acquire_full_timeout_each_wait` with a 100 ms timeout, one
deadline wake, and a trace of one 99 ms notification. -/
theorem acquire_full_timeout_each_wait_witness :
    (getConnectionLoop 100 [] 4 [⟨true, 0, []⟩, ⟨false, 99, []⟩]).result = .timedOut ∧
    (getConnectionLoop 100 [] 4 [⟨true, 0, []⟩, ⟨false, 99, []⟩]).logged = true ∧
    (getConnectionLoop 100 [] 4 [⟨true, 0, []⟩, ⟨false, 99, []⟩]).elapsedTotal = 100 ∧
    (getConnectionLoop 100 [] 4 [⟨false, 99, []⟩]).elapsedTotal ≤
      ([⟨false, 99, []⟩] : List Wake).length * 100 :=
  acquire_full_timeout_each_wait 100 4 [⟨false, 99, []⟩] (by decide)

/-- Claim C5: a `getConnection` call that times out while the idle queue is
still empty returns null, logs the timeout, and has no side effects on pool
state: the queue it leaves is the empty queue it found, the live count is
untouched (the function never accesses it), and no broadcast is made. -/
theorem acquire_timeout_no_side_effects (t : Nat) (cnt : Int) (wakes : List Wake)
    (hempty : ∀ w ∈ wakes, w.queueNow = []) (hto : ∃ w ∈ wakes, w.timedOut) :
    (getConnectionLoop t [] cnt wakes).result = .timedOut ∧
    (getConnectionLoop t [] cnt wakes).finalQueue = [] ∧
    (getConnectionLoop t [] cnt wakes).finalCnt = cnt ∧
    (getConnectionLoop t [] cnt wakes).logged = true ∧
    (getConnectionLoop t [] cnt wakes).notified = false := by
  revert hempty hto
  induction wakes with
  | nil =>
    intro _ hto
    obtain ⟨w, hw, _⟩ := hto
    cases hw
  | cons w ws ih =>
    intro hempty hto
    have hwq : w.queueNow = [] := hempty w (List.mem_cons_self w ws)
    by_cases hwt : w.timedOut
    · unfold getConnectionLoop
      rw [if_pos ⟨hwt, hwq⟩]
      exact ⟨rfl, hwq, rfl, rfl, rfl⟩
    · unfold getConnectionLoop
      rw [if_neg (fun hc => hwt hc.1), hwq]
      have hto' : ∃ x ∈ ws, x.timedOut := by
        obtain ⟨x, hx, hxt⟩ := hto
        rcases List.mem_cons.mp hx with h | h
        · subst h; exact absurd hxt hwt
        · exact ⟨x, h, hxt⟩
      have ihh := ih (fun x hx => hempty x (List.mem_cons_of_mem w hx)) hto'
      exact ⟨ihh.1, ihh.2.1, ihh.2.2.1, ihh.2.2.2.1, ihh.2.2.2.2⟩

/-- Witness for `acquire_timeout_no_side_effects`: a 100 ms timeout call
woken once by a broadcast after 30 ms and then timing out, with the queue
empty throughout and count 4. -/
theorem acquire_timeout_no_side_effects_witness :
    (getConnectionLoop 100 [] 4 [⟨false, 30, []⟩, ⟨true, 0, []⟩]).result = .timedOut ∧
    (getConnectionLoop 100 [] 4 [⟨false, 30, []⟩, ⟨true, 0, []⟩]).finalQueue = [] ∧
    (getConnectionLoop 100 [] 4 [⟨false, 30, []⟩, ⟨true, 0, []⟩]).finalCnt = 4 ∧
    (getConnectionLoop 100 [] 4 [⟨false, 30, []⟩, ⟨true, 0, []⟩]).logged = true ∧
    (getConnectionLoop 100 [] 4 [⟨false, 30, []⟩, ⟨true, 0, []⟩]).notified = false :=
  acquire_timeout_no_side_effects 100 4 [⟨false, 30, []⟩, ⟨true, 0, []⟩]
    (by decide) (by decide)

end ConnectionPool
